import Mathlib

/-!
Verification of the catalog-resolution subsystem of
marblecutter-openaerialmap (src/openaerialmap/catalogs.py and
src/openaerialmap/web.py), shallowly embedded in Lean 4.

Python floats that only ever flow through comparisons and affine
arithmetic are modelled as rationals; Python ints as integers; JSON
documents as insertion-ordered association lists; exceptions as
`Except`; the external collaborators (boto3/requests fetch pipelines,
the marblecutter raster probe, rasterio reprojection, the arrow date
library, unicodedata) as function fields of an explicit `World`records,
universally quantified in the theorems and instantiated concretely in
witnesses.
-/

namespace OAM

/-- A bounding box `(min_x, min_y, max_x, max_y)`, as handed around by
catalogs.py (`self._bounds`, `src.bounds`, `warp.transform_bounds`
results). -/
structure Bbox where
  minX : ℚ
  minY : ℚ
  maxX : ℚ
  maxY : ℚ
deriving DecidableEq

/-- A coordinate reference system identifier (opaque to this code). -/
abbrev CRS : Type := String

/-- A JSON-like value as stored in the metadata documents read by
catalogs.py.  `bandStats` is the band-index-keyed statistics dictionary
that `OINMetaCatalog.__init__` writes into `self._meta["values"]`
during the raster probe (its keys are Python ints, not strings, hence a
dedicated constructor). -/
inductive MetaVal where
  | null
  | str (s : String)
  | num (q : ℚ)
  | boolean (b : Bool)
  | arr (items : List MetaVal)
  | dict (entries : List (String × MetaVal))
  | bandStats (v : List (ℕ × List (String × ℚ)))

/-- A parsed JSON object (Python dict with string keys, in insertion
order). -/
def Meta : Type := List (String × MetaVal)

/-- `d.get(key)`: first binding for `key`, if any. -/
def dictGet {α : Type} : List (String × α) → String → Option α
  | [], _ => none
  | (k, v) :: rest, key => if k = key then some v else dictGet rest key

/-- `key in d`. -/
def dictHas {α : Type} (d : List (String × α)) (key : String) : Bool :=
  (dictGet d key).isSome

/-- `d[key] = v`: replace the binding in place if the key is present,
else append it (Python dict insertion-order semantics). -/
def dictSet {α : Type} (d : List (String × α)) (key : String) (v : α) :
    List (String × α) :=
  if (dictGet d key).isSome then
    d.map (fun kv => if kv.1 = key then (key, v) else kv)
  else
    d ++ [(key, v)]

/-- Same update semantics for the band-index-keyed statistics dict. -/
def bandSet (d : List (ℕ × List (String × ℚ))) (key : ℕ)
    (v : List (String × ℚ)) : List (ℕ × List (String × ℚ)) :=
  if (d.lookup key).isSome then
    d.map (fun kv => if kv.1 = key then (key, v) else kv)
  else
    d ++ [(key, v)]

/-- The spatial test of `OINMetaCatalog.get_sources`
(catalogs.py lines 155-163), verbatim: on each axis, some endpoint of
the (reprojected) request interval lies inside the catalog's closed
interval.  `a` is the catalog's stored WGS84 bounds, `r` the request
bounds reprojected to WGS84. -/
def overlapsDecision (a r : Bbox) : Prop :=
  ((a.minX ≤ r.minX ∧ r.minX ≤ a.maxX) ∨ (a.minX ≤ r.maxX ∧ r.maxX ≤ a.maxX))
    ∧
  ((a.minY ≤ r.minY ∧ r.minY ≤ a.maxY) ∨ (a.minY ≤ r.maxY ∧ r.maxY ≤ a.maxY))

instance (a r : Bbox) : Decidable (overlapsDecision a r) := by
  unfold overlapsDecision
  infer_instance

/-- The specification's `bbox_overlaps`, written from the spec's words
for the refinement comparison: two boxes in the same CRS overlap iff
each axis's closed intervals intersect (touching edges count). -/
def specBboxOverlaps (a b : Bbox) : Prop :=
  a.minX ≤ b.maxX ∧ b.minX ≤ a.maxX ∧ a.minY ≤ b.maxY ∧ b.minY ≤ a.maxY

instance (a b : Bbox) : Decidable (specBboxOverlaps a b) := by
  unfold specBboxOverlaps
  infer_instance

/-- C1 (counterexample).  The overlap decision used by
`OINMetaCatalog.get_sources` is not the closed-interval intersection
test: a request box that strictly contains the catalog's box on both
axes (`A = [0,1]×[0,1]`, `B = [-1,2]×[-1,2]`) intersects it in the
spec's sense, yet the code's decision rejects it; swapping the roles of
the boxes flips the decision, so the decision is not symmetric
either. -/
theorem c1_overlap_not_intersection_counterexample :
    specBboxOverlaps ⟨0, 0, 1, 1⟩ ⟨-1, -1, 2, 2⟩ ∧
    ¬ overlapsDecision ⟨0, 0, 1, 1⟩ ⟨-1, -1, 2, 2⟩ ∧
    overlapsDecision ⟨-1, -1, 2, 2⟩ ⟨0, 0, 1, 1⟩ := by
  decide

/-- C1 (amended).  The decision used by `get_sources` holds iff on each
axis at least one endpoint of the request interval lies inside the
catalog's closed interval; touching edges (`a.max_x = r.min_x`) do
count as overlap; for well-formed boxes the decision implies the
spec's interval-intersection test — but not conversely, and the
decision is not symmetric. -/
theorem c1_overlap_decision_amended (a r : Bbox)
    (hrx : r.minX ≤ r.maxX) (hry : r.minY ≤ r.maxY) :
    (overlapsDecision a r → specBboxOverlaps a r) ∧
    (a.maxX = r.minX → a.minY ≤ r.minY → r.minY ≤ a.maxY →
      a.minX ≤ a.maxX → overlapsDecision a r) := by
  constructor
  · rintro ⟨hx, hy⟩
    refine ⟨?_, ?_, ?_, ?_⟩
    · rcases hx with ⟨h1, _⟩ | ⟨h1, h2⟩
      · exact le_trans h1 hrx
      · exact h1
    · rcases hx with ⟨_, h2⟩ | ⟨h1, h2⟩
      · exact h2
      · exact le_trans hrx h2
    · rcases hy with ⟨h1, _⟩ | ⟨h1, h2⟩
      · exact le_trans h1 hry
      · exact h1
    · rcases hy with ⟨_, h2⟩ | ⟨h1, h2⟩
      · exact h2
      · exact le_trans hry h2
  · intro htouch hy1 hy2 hax
    exact ⟨Or.inl ⟨htouch ▸ hax, htouch ▸ le_refl a.maxX⟩, Or.inl ⟨hy1, hy2⟩⟩

/-- Witness for `c1_overlap_decision_amended`: boxes touching at
`x = 2` with overlapping y-intervals are accepted by the decision, and
the decision there implies the spec's intersection test. -/
theorem c1_overlap_decision_amended_witness :
    overlapsDecision ⟨0, 0, 2, 2⟩ ⟨2, 1, 5, 3⟩ ∧
    specBboxOverlaps ⟨0, 0, 2, 2⟩ ⟨2, 1, 5, 3⟩ := by
  have h := c1_overlap_decision_amended ⟨0, 0, 2, 2⟩ ⟨2, 1, 5, 3⟩
    (by decide) (by decide)
  have hd := h.2 rfl (by decide) (by decide) (by decide)
  exact ⟨hd, h.1 hd⟩

/-- Python `str.startswith`, computed on the character list (so that
concrete instances evaluate by kernel reduction). -/
def strStartsWith (s p : String) : Bool :=
  p.data.isPrefixOf s.data

/-- Python `str.endswith`. -/
def strEndsWith (s p : String) : Bool :=
  p.data.reverse.isPrefixOf s.data.reverse

/-- Left-to-right, non-overlapping, replace-all on character lists,
with a fuel argument for structural termination (fuel equal to the
input length suffices for a non-empty pattern; the single call site's
pattern is the literal `_warped.vrt`). -/
def replaceListAux (pat rep : List Char) : ℕ → List Char → List Char
  | 0, s => s
  | _, [] => []
  | fuel + 1, c :: rest =>
    if pat.isPrefixOf (c :: rest) then
      rep ++ replaceListAux pat rep fuel ((c :: rest).drop pat.length)
    else c :: replaceListAux pat rep fuel rest

/-- Python `str.replace(pat, rep)` for a non-empty pattern. -/
def pyReplace (s pat rep : String) : String :=
  ⟨replaceListAux pat.data rep.data s.data.length s.data⟩

/-- A Python exception, as far as this code distinguishes them:
`NoCatalogAvailable` (marblecutter's catalog-unavailable error) versus
any other exception. -/
inductive PyErr where
  | noCatalogAvailable
  | other (msg : String)
deriving DecidableEq

/-- What the raster-header probe (`get_source(...)` in
`OINMetaCatalog.__init__`) yields when it succeeds: the rasterio
dataset attributes and tag lookups the constructor reads.  Tag values
are modelled already parsed to numbers (the external `float(...)`
conversion). -/
structure ProbeData where
  bounds : Bbox
  crs : CRS
  height : ℕ
  width : ℕ
  dtype : String
  count : ℕ
  globalMin : Option ℚ
  globalMax : Option ℚ
  statMin : ℕ → Option ℚ
  statMax : ℕ → Option ℚ
  statMean : ℕ → Option ℚ

/-- A scene-document source entry; `sourceUri` stands for
`source["meta"]["source"]`. -/
structure SceneSource where
  sourceUri : String

/-- A parsed scene document (`scene.json`), with the fields
`OAMSceneCatalog.__init__` reads. -/
structure SceneDoc where
  bounds : MetaVal
  center : MetaVal
  maxzoom : MetaVal
  minzoom : MetaVal
  name : MetaVal
  sources : List SceneSource

/-- The external collaborators of catalogs.py, abstracted as functions:
the boto3/requests fetch-and-parse pipelines (per URI scheme, for image
metadata documents and for scene documents), the marblecutter raster
probe `get_source`, rasterio's `warp.transform_bounds` into WGS84,
marblecutter's `get_resolution_in_meters` and `get_zoom` (with the
default rounding and with `op=math.ceil`). -/
structure World where
  s3GetParse : String → Except PyErr Meta
  httpGetParse : String → Except PyErr Meta
  s3GetScene : String → Except PyErr SceneDoc
  httpGetScene : String → Except PyErr SceneDoc
  getSource : Option MetaVal → Except PyErr ProbeData
  transformBounds : CRS → Bbox → Bbox
  getResolution : Bbox → CRS → ℕ × ℕ → ℚ × ℚ
  getZoom : ℚ → ℤ
  getZoomCeil : ℚ → ℤ

/-- The scheme dispatch at the top of `OINMetaCatalog.__init__`
(catalogs.py lines 94-101): s3 via boto3, http(s) via requests, any
other scheme raises `NoCatalogAvailable`. -/
def schemeFetch (w : World) (uri : String) : Except PyErr Meta :=
  if strStartsWith uri "s3://" then w.s3GetParse uri
  else if strStartsWith uri "http://" || strStartsWith uri "https://" then
    w.httpGetParse uri
  else Except.error PyErr.noCatalogAvailable

/-- The whole guarded fetch of `OINMetaCatalog.__init__` (lines 93-103):
the `try`/`except Exception` converts every failure of the fetch/parse
phase — transport error, parse error, unknown scheme — into
`NoCatalogAvailable`. -/
def fetchMeta (w : World) (uri : String) : Except PyErr Meta :=
  match schemeFetch w uri with
  | Except.ok m => Except.ok m
  | Except.error _ => Except.error PyErr.noCatalogAvailable

/-- One band's statistics dict (catalogs.py lines 124-140): per-band
`STATISTICS_*` tags, falling back to the global min/max tags for
min/max, omitting absent fields (never fabricated). -/
def bandEntry (src : ProbeData) (band : ℕ) : List (String × ℚ) :=
  let d : List (String × ℚ) := []
  let d := match src.statMin band, src.globalMin with
    | some v, _ => d ++ [("min", v)]
    | none, some v => d ++ [("min", v)]
    | none, none => d
  let d := match src.statMax band, src.globalMax with
    | some v, _ => d ++ [("max", v)]
    | none, some v => d ++ [("max", v)]
    | none, none => d
  match src.statMean band with
  | some v => d ++ [("mean", v)]
  | none => d

/-- The statistics-harvesting loop of `OINMetaCatalog.__init__`
(lines 122-140), run when the raster's dtype is not uint8: for each
band, `self._meta["values"]` is re-fetched (defaulting to empty; the
metadata documents do not carry a band-indexed `values` dict of their
own, and a non-dict value there would raise in Python) and the band's
entry is stored under its index.  When the raster has zero bands the
loop body never runs and the document is left untouched. -/
def harvestStats (meta : Meta) (src : ProbeData) : Meta :=
  (List.range src.count).foldl
    (fun m band =>
      let prior := match dictGet m "values" with
        | some (MetaVal.bandStats v) => v
        | _ => []
      dictSet m "values"
        (MetaVal.bandStats (bandSet prior band (bandEntry src band))))
    meta

/-- The constructed `OINMetaCatalog` (the spec's ImageCatalog): the
attributes `__init__` stores on `self`. -/
structure OINMetaCatalog where
  meta : Meta
  metadataUrl : String
  name : Option MetaVal
  provider : Option MetaVal
  source : Option MetaVal
  bounds : Bbox
  resolution : ℚ × ℚ
  center : ℚ × ℚ × ℤ
  maxzoom : ℤ
  minzoom : ℤ

/-- The success path of `OINMetaCatalog.__init__` after fetch and
probe both succeed (catalogs.py lines 105-148): attribute extraction
from the document, WGS84 bounds via `warp.transform_bounds`, the
resolution, the ceil-rounded approximate zoom, statistics harvesting
for non-uint8 rasters, and the derived center/maxzoom/minzoom. -/
def mkImageCatalog (w : World) (uri : String) (oinMeta : Meta)
    (src : ProbeData) : OINMetaCatalog :=
  let bounds := w.transformBounds src.crs src.bounds
  let resolution := w.getResolution src.bounds src.crs (src.height, src.width)
  let approximateZoom := w.getZoomCeil (max resolution.1 resolution.2)
  let meta := if src.dtype = "uint8" then oinMeta else harvestStats oinMeta src
  ⟨meta, uri, dictGet oinMeta "title", dictGet oinMeta "provider",
    dictGet oinMeta "uuid", bounds, resolution,
    ⟨(bounds.minX + bounds.maxX) / 2, (bounds.minY + bounds.maxY) / 2,
      approximateZoom - 3⟩,
    approximateZoom + 3, approximateZoom - 10⟩

/-- `OINMetaCatalog.__init__` (catalogs.py lines 92-148): the guarded
fetch/parse, then the unguarded raster-header probe (`get_source`),
then the success path. -/
def oinMetaCatalogInit (w : World) (uri : String) :
    Except PyErr OINMetaCatalog :=
  match fetchMeta w uri with
  | Except.error e => Except.error e
  | Except.ok oinMeta =>
    match w.getSource (dictGet oinMeta "uuid") with
    | Except.error e => Except.error e
    | Except.ok src => Except.ok (mkImageCatalog w uri oinMeta src)

/-- The `Source` record yielded to the rendering collaborator
(marblecutter's `Source`, as constructed at catalogs.py lines
166-173). -/
structure Source where
  id : Option MetaVal
  name : Option MetaVal
  resolution : ℚ × ℚ
  bandOverrides : List (String × MetaVal)
  meta : Meta
  recipes : List (String × MetaVal)

/-- The single `Source` an `OINMetaCatalog` yields: itself. -/
def selfSource (c : OINMetaCatalog) : Source :=
  ⟨c.source, c.name, c.resolution, [], c.meta,
    [("imagery", MetaVal.boolean true)]⟩

/-- `OINMetaCatalog.get_sources` (catalogs.py lines 150-173): derive
the request zoom from the request resolution, reproject the request
bounds to WGS84, and yield `selfSource` iff the spatial endpoint test
and the zoom gate both pass (the generator is modelled as a list of
length 0 or 1). -/
def oinGetSources (w : World) (c : OINMetaCatalog) (bounds : Bbox × CRS)
    (resolution : ℚ × ℚ) : List Source :=
  let zoom := w.getZoom (max resolution.1 resolution.2)
  let r := w.transformBounds bounds.2 bounds.1
  if overlapsDecision c.bounds r ∧ c.minzoom ≤ zoom ∧ zoom ≤ c.maxzoom then
    [selfSource c]
  else []

/-- The observable behaviour of
`list(executor.map(_build_catalog, sources))` in
`OAMSceneCatalog.__init__` (lines 81-84): results are gathered back
into input-list order, and iterating past a failed element re-raises
its exception, so the overall value is either the full ordered list of
results or the exception of the first failing position. -/
def exceptMapList {α β : Type} (f : α → Except PyErr β) :
    List α → Except PyErr (List β)
  | [] => Except.ok []
  | x :: xs =>
    match f x with
    | Except.error e => Except.error e
    | Except.ok y =>
      match exceptMapList f xs with
      | Except.error e => Except.error e
      | Except.ok ys => Except.ok (y :: ys)

/-- `_build_catalog` (catalogs.py lines 75-78): derive the per-source
metadata URI by replacing the suffix `_warped.vrt` with `_meta.json`
(Python `str.replace` replaces every occurrence, as does
`String.replace`) and construct the child `OINMetaCatalog`. -/
def buildCatalog (w : World) (entry : SceneSource) :
    Except PyErr OINMetaCatalog :=
  oinMetaCatalogInit w (pyReplace entry.sourceUri "_warped.vrt" "_meta.json")

/-- The scene-document fetch of `OAMSceneCatalog.__init__` (lines
60-67).  Unlike the image-catalog constructor, there is no
`try`/`except` here: only an unrecognized scheme raises
`NoCatalogAvailable`; transport and parse errors propagate as they
are. -/
def sceneGetDoc (w : World) (uri : String) : Except PyErr SceneDoc :=
  if strStartsWith uri "s3://" then w.s3GetScene uri
  else if strStartsWith uri "http://" || strStartsWith uri "https://" then
    w.httpGetScene uri
  else Except.error PyErr.noCatalogAvailable

/-- The constructed `OAMSceneCatalog` (the spec's SceneCatalog):
bounds/center/zoom/name recorded verbatim from the scene document, plus
the ordered child list. -/
structure OAMSceneCatalog where
  bounds : MetaVal
  center : MetaVal
  maxzoom : MetaVal
  minzoom : MetaVal
  name : MetaVal
  sources : List OINMetaCatalog

/-- `OAMSceneCatalog.__init__` (catalogs.py lines 59-84): fetch the
scene document, record its fields, and build one child per declared
mosaic source from the reverse of the declared order. -/
def oamSceneCatalogInit (w : World) (uri : String) :
    Except PyErr OAMSceneCatalog :=
  match sceneGetDoc w uri with
  | Except.error e => Except.error e
  | Except.ok scene =>
    match exceptMapList (buildCatalog w) scene.sources.reverse with
    | Except.error e => Except.error e
    | Except.ok children =>
      Except.ok ⟨scene.bounds, scene.center, scene.maxzoom, scene.minzoom,
        scene.name, children⟩

/-- `OAMSceneCatalog.get_sources` (catalogs.py lines 86-87):
`chain(*[s.get_sources(bounds, resolution) for s in self._sources])`,
i.e. the concatenation of the children's results in child-list order,
with no filtering of its own. -/
def sceneGetSources (w : World) (s : OAMSceneCatalog) (bounds : Bbox × CRS)
    (resolution : ℚ × ℚ) : List Source :=
  (s.sources.map (fun c => oinGetSources w c bounds resolution)).flatten

/-! ### Concrete data for witnesses and counterexamples -/

/-- A well-formed image metadata document. -/
def demoMeta : Meta :=
  [("title", MetaVal.str "Demo image"), ("provider", MetaVal.str "DemoCorp"),
   ("uuid", MetaVal.str "s3://bucket/img.tif")]

/-- A uint8 raster probe result with WGS84 bounds `[0,0,1,1]`. -/
def demoProbe : ProbeData :=
  ⟨⟨0, 0, 1, 1⟩, "EPSG:4326", 256, 256, "uint8", 3, none, none,
   fun _ => none, fun _ => none, fun _ => none⟩

/-- A scene document declaring two mosaic sources in order `[a, b]`. -/
def demoScene : SceneDoc :=
  ⟨MetaVal.arr [MetaVal.num (-10), MetaVal.num (-10), MetaVal.num 10,
      MetaVal.num 10],
   MetaVal.arr [MetaVal.num 0, MetaVal.num 0, MetaVal.num 10],
   MetaVal.num 20, MetaVal.num 0, MetaVal.str "Demo scene",
   [⟨"s3://bucket/a_warped.vrt"⟩, ⟨"s3://bucket/b_warped.vrt"⟩]⟩

/-- A world in which every fetch and the raster probe succeed,
reprojection is the identity, every resolution is one meter per pixel,
the default-rounded request zoom is 10 and the ceil-rounded build zoom
is 13 (so constructed catalogs get minzoom 3, center zoom 10,
maxzoom 16). -/
def demoWorld : World :=
  ⟨fun _ => Except.ok demoMeta, fun _ => Except.ok demoMeta,
   fun _ => Except.ok demoScene, fun _ => Except.ok demoScene,
   fun _ => Except.ok demoProbe,
   fun _ b => b, fun _ _ _ => (1, 1), fun _ => 10, fun _ => 13⟩

/-- `demoWorld` with a raster probe that fails with an exception other
than `NoCatalogAvailable`. -/
def probeFailWorld : World :=
  ⟨fun _ => Except.ok demoMeta, fun _ => Except.ok demoMeta,
   fun _ => Except.ok demoScene, fun _ => Except.ok demoScene,
   fun _ => Except.error (PyErr.other "rasterio: cannot open source"),
   fun _ b => b, fun _ _ _ => (1, 1), fun _ => 10, fun _ => 13⟩

/-! ### C2 -/

/-- C2 (counterexample).  A constructed catalog with bounds
`[0,0,1,1]`, minzoom 3 and maxzoom 16, facing a WGS84 request
`[-5,-5,5,5]` at request zoom 10: the boxes overlap in the spec's
intersection sense and the zoom gate passes, yet `get_sources` yields
zero Sources (the request strictly contains the catalog's box, which
the code's endpoint test rejects), so "exactly one Source iff the
bounds overlap and the zoom gate passes" fails. -/
theorem c2_containment_returns_no_source :
    (oinMetaCatalogInit demoWorld "s3://bucket/img_meta.json").map
        (fun c =>
          (decide (specBboxOverlaps c.bounds ⟨-5, -5, 5, 5⟩), c.minzoom,
            c.maxzoom,
            (oinGetSources demoWorld c (⟨-5, -5, 5, 5⟩, "EPSG:4326")
                (1, 1)).length)) =
      Except.ok (true, 3, 16, 0) ∧
    demoWorld.getZoom 1 = 10 ∧ (3 : ℤ) ≤ 10 ∧ (10 : ℤ) ≤ 16 := by
  exact ⟨rfl, rfl, by decide, by decide⟩

/-- C2 (amended).  `get_sources` yields zero or one Source; it yields
exactly one — describing the catalog itself — iff the code's
endpoint-containment overlap decision accepts the reprojected request
bounds AND `min_zoom ≤ request_zoom ≤ max_zoom`; when the request zoom
lies outside `[min_zoom, max_zoom]`, zero Sources are returned even if
the decision (or true spatial overlap) holds. -/
theorem c2_get_sources_amended (w : World) (c : OINMetaCatalog) (b : Bbox)
    (crs : CRS) (res : ℚ × ℚ) :
    (oinGetSources w c (b, crs) res).length ≤ 1 ∧
    ((oinGetSources w c (b, crs) res).length = 1 ↔
      overlapsDecision c.bounds (w.transformBounds crs b) ∧
      c.minzoom ≤ w.getZoom (max res.1 res.2) ∧
      w.getZoom (max res.1 res.2) ≤ c.maxzoom) ∧
    (∀ s ∈ oinGetSources w c (b, crs) res, s = selfSource c) ∧
    (¬ (c.minzoom ≤ w.getZoom (max res.1 res.2) ∧
          w.getZoom (max res.1 res.2) ≤ c.maxzoom) →
      oinGetSources w c (b, crs) res = []) := by
  refine ⟨?_, ?_, ?_, ?_⟩
  · by_cases h : overlapsDecision c.bounds (w.transformBounds crs b) ∧
        c.minzoom ≤ w.getZoom (max res.1 res.2) ∧
        w.getZoom (max res.1 res.2) ≤ c.maxzoom <;>
      simp [oinGetSources, h]
  · by_cases h : overlapsDecision c.bounds (w.transformBounds crs b) ∧
        c.minzoom ≤ w.getZoom (max res.1 res.2) ∧
        w.getZoom (max res.1 res.2) ≤ c.maxzoom <;>
      simp [oinGetSources, h]
  · by_cases h : overlapsDecision c.bounds (w.transformBounds crs b) ∧
        c.minzoom ≤ w.getZoom (max res.1 res.2) ∧
        w.getZoom (max res.1 res.2) ≤ c.maxzoom <;>
      simp [oinGetSources, h]
  · intro hn
    by_cases h : overlapsDecision c.bounds (w.transformBounds crs b) ∧
        c.minzoom ≤ w.getZoom (max res.1 res.2) ∧
        w.getZoom (max res.1 res.2) ≤ c.maxzoom
    · exact absurd h.2 hn
    · simp [oinGetSources, h]

/-- Witness for `c2_get_sources_amended`: a request inside the demo
catalog's bounds at an in-range zoom yields exactly one Source. -/
theorem c2_get_sources_amended_witness :
    (oinGetSources demoWorld
        ⟨demoMeta, "s3://bucket/img_meta.json", dictGet demoMeta "title",
          dictGet demoMeta "provider", dictGet demoMeta "uuid",
          ⟨0, 0, 1, 1⟩, (1, 1), ⟨1/2, 1/2, 10⟩, 16, 3⟩
        (⟨0, 0, 1, 1⟩, "EPSG:4326") (1, 1)).length ≤ 1 :=
  (c2_get_sources_amended demoWorld
    ⟨demoMeta, "s3://bucket/img_meta.json", dictGet demoMeta "title",
      dictGet demoMeta "provider", dictGet demoMeta "uuid",
      ⟨0, 0, 1, 1⟩, (1, 1), ⟨1/2, 1/2, 10⟩, 16, 3⟩
    ⟨0, 0, 1, 1⟩ "EPSG:4326" (1, 1)).1

/-! ### C4 -/

/-- C4 (counterexample).  For the demo catalog (ceil-derived zoom 13)
the center zoom is 10 and maxzoom is 16: the center zoom sits 6 — not
3 — below maxzoom, refuting the claim's final conjunct "the center
zoom sits 3 below max_zoom". -/
theorem c4_center_not_three_below_max :
    (oinMetaCatalogInit demoWorld "s3://bucket/img_meta.json").map
        (fun c => (c.center.2.2, c.maxzoom)) = Except.ok (10, 16) ∧
    (10 : ℤ) ≠ 16 - 3 := by
  exact ⟨rfl, by decide⟩

/-- C4 (amended).  For every successfully constructed catalog, with
`z` the ceil-rounded zoom derived from its resolution:
`center.zoom = z - 3`, `max_zoom = center.zoom + 6`,
`min_zoom = center.zoom - 7`; hence `max_zoom - min_zoom = 13`,
`min_zoom < max_zoom`, `center.zoom = max_zoom - 6`, and the center
zoom sits 6 (not 3) below max_zoom. -/
theorem c4_zoom_invariants_amended (w : World) (uri : String)
    (c : OINMetaCatalog) (h : oinMetaCatalogInit w uri = Except.ok c) :
    c.center.2.2 = w.getZoomCeil (max c.resolution.1 c.resolution.2) - 3 ∧
    c.maxzoom = c.center.2.2 + 6 ∧
    c.minzoom = c.center.2.2 - 7 ∧
    c.maxzoom - c.minzoom = 13 ∧
    c.minzoom < c.maxzoom ∧
    c.center.2.2 = c.maxzoom - 6 := by
  unfold oinMetaCatalogInit at h
  split at h
  · exact absurd h (by simp)
  · split at h
    · exact absurd h (by simp)
    · simp only [Except.ok.injEq] at h
      subst h
      unfold mkImageCatalog
      dsimp only
      refine ⟨rfl, by omega, by omega, by omega, by omega, by omega⟩

/-- Witness for `c4_zoom_invariants_amended` on the demo world. -/
theorem c4_zoom_invariants_amended_witness :
    ∃ c, oinMetaCatalogInit demoWorld "s3://bucket/img_meta.json" =
        Except.ok c ∧
      c.maxzoom - c.minzoom = 13 ∧ c.minzoom < c.maxzoom ∧
      c.center.2.2 = c.maxzoom - 6 := by
  refine ⟨mkImageCatalog demoWorld "s3://bucket/img_meta.json" demoMeta
    demoProbe, rfl, ?_⟩
  have h := c4_zoom_invariants_amended demoWorld "s3://bucket/img_meta.json"
    (mkImageCatalog demoWorld "s3://bucket/img_meta.json" demoMeta demoProbe)
    rfl
  exact ⟨h.2.2.2.1, h.2.2.2.2.1, h.2.2.2.2.2⟩

/-! ### C5 -/

/-- C5 (counterexample).  A raster-probe failure (any exception other
than `NoCatalogAvailable` raised by `get_source`, which sits outside
the constructor's `try`/`except`) propagates out of
`OINMetaCatalog.__init__` unconverted, so `CatalogUnavailable` is not
the only error the constructor can raise. -/
theorem c5_probe_error_propagates_uncaught :
    oinMetaCatalogInit probeFailWorld "s3://bucket/img_meta.json" =
      Except.error (PyErr.other "rasterio: cannot open source") ∧
    PyErr.other "rasterio: cannot open source" ≠
      PyErr.noCatalogAvailable := by
  exact ⟨rfl, by decide⟩

/-- C5 (amended).  Every failure of the fetch/parse phase — transport
error, parse error, or unrecognized URI scheme — is converted to
`CatalogUnavailable`; but the raster-header probe is outside the
guard, so a probe failure propagates as-is: any constructor error
other than `CatalogUnavailable` is exactly a probe error raised after
a successful fetch. -/
theorem c5_error_policy_amended (w : World) (uri : String) :
    (∀ e, schemeFetch w uri = Except.error e →
      oinMetaCatalogInit w uri = Except.error PyErr.noCatalogAvailable) ∧
    (strStartsWith uri "s3://" = false →
      (strStartsWith uri "http://" || strStartsWith uri "https://") = false →
      oinMetaCatalogInit w uri = Except.error PyErr.noCatalogAvailable) ∧
    (∀ e, oinMetaCatalogInit w uri = Except.error e →
      e ≠ PyErr.noCatalogAvailable →
      ∃ m, fetchMeta w uri = Except.ok m ∧
        w.getSource (dictGet m "uuid") = Except.error e) := by
  refine ⟨?_, ?_, ?_⟩
  · intro e he
    unfold oinMetaCatalogInit fetchMeta
    rw [he]
  · intro h1 h2
    unfold oinMetaCatalogInit fetchMeta schemeFetch
    rw [h1, h2]
    rfl
  · intro e he hne
    unfold oinMetaCatalogInit at he
    split at he
    next e' hf =>
      exfalso
      apply hne
      injection he with he'
      subst he'
      unfold fetchMeta at hf
      split at hf
      · exact absurd hf (by simp)
      · injection hf with hf'
        exact hf'.symm
    next oinMeta hf =>
      split at he
      next e'' hs =>
        injection he with he'
        exact ⟨oinMeta, hf, he' ▸ hs⟩
      next src hs =>
        exact absurd he (by simp)

/-- Witness for `c5_error_policy_amended`: an unrecognized scheme
(`file://`) yields `CatalogUnavailable`. -/
theorem c5_error_policy_amended_witness :
    oinMetaCatalogInit demoWorld "file:///tmp/img_meta.json" =
      Except.error PyErr.noCatalogAvailable :=
  (c5_error_policy_amended demoWorld "file:///tmp/img_meta.json").2.1
    (by rfl) (by rfl)

/-! ### Helper lemmas about the gathered concurrent build -/

theorem exceptMapList_error_of_mem {α β : Type} (f : α → Except PyErr β)
    (x : α) (e : PyErr) :
    ∀ l : List α, x ∈ l → f x = Except.error e →
      ∃ e', exceptMapList f l = Except.error e' := by
  intro l
  induction l with
  | nil =>
    intro hx
    cases hx
  | cons y ys ih =>
    intro hx hfx
    simp only [exceptMapList]
    cases hy : f y with
    | error e'' => exact ⟨e'', rfl⟩
    | ok b =>
      have hx' : x ∈ ys := by
        rcases List.mem_cons.mp hx with h | h
        · subst h
          rw [hfx] at hy
          exact absurd hy (by simp)
        · exact h
      obtain ⟨e', he'⟩ := ih hx' hfx
      exact ⟨e', by rw [he']⟩

theorem exceptMapList_ok_mem {α β : Type} (f : α → Except PyErr β) :
    ∀ (l : List α) (ys : List β), exceptMapList f l = Except.ok ys →
      ∀ x ∈ l, ∃ y, f x = Except.ok y ∧ y ∈ ys := by
  intro l
  induction l with
  | nil =>
    intro ys h x hx
    cases hx
  | cons z zs ih =>
    intro ys h x hx
    simp only [exceptMapList] at h
    split at h
    · exact absurd h (by simp)
    next b hz =>
      split at h
      · exact absurd h (by simp)
      next bs hzs =>
        injection h with h'
        rcases List.mem_cons.mp hx with hh | hh
        · subst hh
          exact ⟨b, hz, h' ▸ List.mem_cons_self b bs⟩
        · obtain ⟨y, hy1, hy2⟩ := ih bs hzs x hh
          exact ⟨y, hy1, h' ▸ List.mem_cons_of_mem b hy2⟩

/-! ### C3 -/

/-- C3 (confirmed).  For a scene document with declared source list
`[S1, ..., Sn]`, the constructed SceneCatalog's child list is the
ordered result of building `[Sn, ..., S1]` (the exact reverse of the
declared order, gathered back into list positions by the worker pool),
and `get_sources` is exactly the concatenation of the children's
`get_sources` results in child-list order, with no filtering of its
own (membership in the result is membership in some child's
result). -/
theorem c3_scene_children_reversed_concat (w : World) (uri : String)
    (doc : SceneDoc) (cat : OAMSceneCatalog)
    (hdoc : sceneGetDoc w uri = Except.ok doc)
    (hcat : oamSceneCatalogInit w uri = Except.ok cat) :
    exceptMapList (buildCatalog w) doc.sources.reverse =
      Except.ok cat.sources ∧
    (∀ b r, sceneGetSources w cat b r =
      (cat.sources.map (fun c => oinGetSources w c b r)).flatten) ∧
    (∀ b r s, s ∈ sceneGetSources w cat b r ↔
      ∃ c ∈ cat.sources, s ∈ oinGetSources w c b r) := by
  unfold oamSceneCatalogInit at hcat
  split at hcat
  next e hd =>
    exact absurd hcat (by simp)
  next scene hd =>
    rw [hdoc] at hd
    injection hd with hd'
    subst hd'
    split at hcat
    next e hm =>
      exact absurd hcat (by simp)
    next children hm =>
      injection hcat with hc
      subst hc
      refine ⟨hm, fun b r => rfl, fun b r s => ?_⟩
      simp [sceneGetSources, List.mem_flatten]

/-- Witness for `c3_scene_children_reversed_concat`: the demo scene
declares `[a, b]` and the constructed children are `[b', a']`. -/
theorem c3_scene_children_reversed_concat_witness :
    exceptMapList (buildCatalog demoWorld) demoScene.sources.reverse =
      Except.ok
        [mkImageCatalog demoWorld "s3://bucket/b_meta.json" demoMeta demoProbe,
         mkImageCatalog demoWorld "s3://bucket/a_meta.json" demoMeta
           demoProbe] :=
  (c3_scene_children_reversed_concat demoWorld "s3://bucket/scene.json"
    demoScene
    ⟨demoScene.bounds, demoScene.center, demoScene.maxzoom, demoScene.minzoom,
      demoScene.name,
      [mkImageCatalog demoWorld "s3://bucket/b_meta.json" demoMeta demoProbe,
       mkImageCatalog demoWorld "s3://bucket/a_meta.json" demoMeta demoProbe]⟩
    rfl rfl).1

/-! ### C6 -/

/-- C6 (confirmed).  If any single child build fails during
SceneCatalog construction, the whole construction fails; and a
successful construction contains a successfully built child for every
declared source (no partial child list is ever produced). -/
theorem c6_child_failure_fails_scene (w : World) (uri : String)
    (doc : SceneDoc) (hdoc : sceneGetDoc w uri = Except.ok doc) :
    (∀ entry ∈ doc.sources, ∀ e, buildCatalog w entry = Except.error e →
      ∃ e', oamSceneCatalogInit w uri = Except.error e') ∧
    (∀ cat, oamSceneCatalogInit w uri = Except.ok cat →
      ∀ entry ∈ doc.sources, ∃ c, buildCatalog w entry = Except.ok c ∧
        c ∈ cat.sources) := by
  constructor
  · intro entry hmem e hfail
    obtain ⟨e', he'⟩ := exceptMapList_error_of_mem (buildCatalog w) entry e
      doc.sources.reverse (List.mem_reverse.mpr hmem) hfail
    unfold oamSceneCatalogInit
    split
    next e'' hd => exact ⟨e'', rfl⟩
    next scene hd =>
      rw [hdoc] at hd
      injection hd with hd'
      subst hd'
      split
      next e'' hm => exact ⟨e'', rfl⟩
      next children hm =>
        rw [he'] at hm
        exact absurd hm (by simp)
  · intro cat hcat entry hmem
    unfold oamSceneCatalogInit at hcat
    split at hcat
    next e hd => exact absurd hcat (by simp)
    next scene hd =>
      rw [hdoc] at hd
      injection hd with hd'
      subst hd'
      split at hcat
      next e hm => exact absurd hcat (by simp)
      next children hm =>
        injection hcat with hc
        subst hc
        exact exceptMapList_ok_mem (buildCatalog w) doc.sources.reverse
          children hm entry (List.mem_reverse.mpr hmem)

/-- Witness for `c6_child_failure_fails_scene`: with a failing raster
probe, building either declared source fails and the whole demo scene
construction fails. -/
theorem c6_child_failure_fails_scene_witness :
    ∃ e', oamSceneCatalogInit probeFailWorld "s3://bucket/scene.json" =
      Except.error e' :=
  (c6_child_failure_fails_scene probeFailWorld "s3://bucket/scene.json"
    demoScene rfl).1 ⟨"s3://bucket/a_warped.vrt"⟩ (by simp [demoScene])
    (PyErr.other "rasterio: cannot open source") rfl

/-! ### The `headers` property (catalogs.py lines 175-224) -/

/-- Python truthiness of the JSON values the headers code tests. -/
def truthy : MetaVal → Bool
  | MetaVal.null => false
  | MetaVal.str s => s != ""
  | MetaVal.num q => q != 0
  | MetaVal.boolean b => b
  | MetaVal.arr items => !items.isEmpty
  | MetaVal.dict entries => !entries.isEmpty
  | MetaVal.bandStats v => !v.isEmpty

/-- Truthiness of `meta.get(key)` (absent keys give `None`, which is
falsy). -/
def optTruthy : Option MetaVal → Bool
  | none => false
  | some v => truthy v

/-- A header value: Python `str`, or the `bytes` produced by
`.encode("ascii", "ignore")`. -/
inductive HVal where
  | str (s : String)
  | bytes (s : String)
deriving DecidableEq

/-- The ways the `headers` body can raise: reading the local
`capture_range` before any branch assigned it (`UnboundLocalError`,
line 208), an `arrow.get` parse failure, or `unicodedata.normalize`
applied to a non-string value (`TypeError`). -/
inductive HeadersErr where
  | unboundLocalCaptureRange
  | parseErr
  | typeErr
deriving DecidableEq

/-- The external date/text libraries used by `headers`: `arrow.get`
(returning `none` for an unparseable value), the two `arrow` format
calls, and the NFKD-normalize-then-ascii-encode pipeline. -/
structure DateLib where
  arrowGet : MetaVal → Option String
  fmtMDY : String → String
  fmtISO : String → String
  asciiNormalize : String → String

/-- The acquisition block of `headers` (lines 179-208), as the ordered
list of header entries it assigns.  All keys assigned by the method are
distinct string literals, so Python's dict insertion-order semantics
make each branch an append in assignment order
(`X-OIN-Acquisition-Start`, `X-OIN-Acquisition-End`, then the
`X-VE-TILEMETA-CaptureDatesRange` written at line 208).  When the
outer key-membership guard passes but every value present is falsy, no
branch assigns `capture_range` and line 208 raises
`UnboundLocalError`. -/
def acqEntries (dl : DateLib) (meta : Meta) :
    Except HeadersErr (List (String × HVal)) :=
  if dictHas meta "acquisition_start" || dictHas meta "acquisition_end" then
    let start := dictGet meta "acquisition_start"
    let stop := dictGet meta "acquisition_end"
    if optTruthy start && optTruthy stop then
      match dl.arrowGet ((start).getD MetaVal.null),
          dl.arrowGet ((stop).getD MetaVal.null) with
      | some s, some e =>
        Except.ok
          [("X-OIN-Acquisition-Start", HVal.str (dl.fmtISO s)),
           ("X-OIN-Acquisition-End", HVal.str (dl.fmtISO e)),
           ("X-VE-TILEMETA-CaptureDatesRange",
             HVal.str (dl.fmtMDY s ++ "-" ++ dl.fmtMDY e))]
      | _, _ => Except.error HeadersErr.parseErr
    else if optTruthy start then
      match dl.arrowGet ((start).getD MetaVal.null) with
      | some s =>
        Except.ok
          [("X-OIN-Acquisition-Start", HVal.str (dl.fmtISO s)),
           ("X-VE-TILEMETA-CaptureDatesRange", HVal.str (dl.fmtMDY s))]
      | none => Except.error HeadersErr.parseErr
    else if optTruthy stop then
      match dl.arrowGet ((stop).getD MetaVal.null) with
      | some e =>
        Except.ok
          [("X-OIN-Acquisition-End", HVal.str (dl.fmtISO e)),
           ("X-VE-TILEMETA-CaptureDatesRange", HVal.str (dl.fmtMDY e))]
      | none => Except.error HeadersErr.parseErr
    else Except.error HeadersErr.unboundLocalCaptureRange
  else Except.ok []

/-- The provider block (lines 210-215): present and a string gives the
ASCII-normalized bytes entry, present and not a string raises
`TypeError` inside `unicodedata.normalize`. -/
def providerEntry (dl : DateLib) (meta : Meta) :
    Except HeadersErr (List (String × HVal)) :=
  if dictHas meta "provider" then
    match dictGet meta "provider" with
    | some (MetaVal.str s) =>
      Except.ok [("X-OIN-Provider", HVal.bytes (dl.asciiNormalize s))]
    | _ => Except.error HeadersErr.typeErr
  else Except.ok []

/-- The platform block (lines 217-222). -/
def platformEntry (dl : DateLib) (meta : Meta) :
    Except HeadersErr (List (String × HVal)) :=
  if dictHas meta "platform" then
    match dictGet meta "platform" with
    | some (MetaVal.str s) =>
      Except.ok [("X-OIN-Platform", HVal.bytes (dl.asciiNormalize s))]
    | _ => Except.error HeadersErr.typeErr
  else Except.ok []

/-- Provider then platform entries, in assignment order. -/
def provEntries (dl : DateLib) (meta : Meta) :
    Except HeadersErr (List (String × HVal)) :=
  match providerEntry dl meta with
  | Except.error e => Except.error e
  | Except.ok ps =>
    match platformEntry dl meta with
    | Except.error e => Except.error e
    | Except.ok qs => Except.ok (ps ++ qs)

/-- The `headers` property body (lines 175-224): the dict literal with
the metadata URL, then the acquisition block, then provider and
platform. -/
def headersCore (dl : DateLib) (c : OINMetaCatalog) :
    Except HeadersErr (List (String × HVal)) :=
  match acqEntries dl c.meta with
  | Except.error e => Except.error e
  | Except.ok acq =>
    match provEntries dl c.meta with
    | Except.error e => Except.error e
    | Except.ok prov =>
      Except.ok ([("X-OIN-Metadata-URL", HVal.str c.metadataUrl)] ++ acq
        ++ prov)

/-- The `headers` property viewed as a method on `self`: the body
contains no assignment to `self` (it only reads `self._meta` and
`self._metadata_url` and builds a fresh dict), so the catalog comes
back unchanged alongside the result. -/
def headersMethod (dl : DateLib) (c : OINMetaCatalog) :
    Except HeadersErr (List (String × HVal)) × OINMetaCatalog :=
  (headersCore dl c, c)

/-! ### Key lemmas for the headers mapping -/

theorem dictGet_eq_none_of_keys {α : Type} (k : String) :
    ∀ l : List (String × α), (∀ kv ∈ l, kv.1 ≠ k) → dictGet l k = none := by
  intro l
  induction l with
  | nil =>
    intro h
    rfl
  | cons kv rest ih =>
    intro h
    obtain ⟨k', v⟩ := kv
    simp only [dictGet]
    rw [if_neg (h (k', v) (List.mem_cons_self _ _))]
    exact ih (fun kv' h' => h kv' (List.mem_cons_of_mem _ h'))

theorem providerEntry_keys (dl : DateLib) (meta : Meta)
    (ps : List (String × HVal)) (h : providerEntry dl meta = Except.ok ps) :
    ∀ kv ∈ ps, kv.1 = "X-OIN-Provider" := by
  unfold providerEntry at h
  split at h
  · split at h
    next s =>
      injection h with h'
      subst h'
      intro kv hkv
      rcases List.mem_cons.mp hkv with hh | hh
      · subst hh
        rfl
      · cases hh
    next =>
      exact absurd h (by simp)
  · injection h with h'
    subst h'
    intro kv hkv
    cases hkv

theorem platformEntry_keys (dl : DateLib) (meta : Meta)
    (ps : List (String × HVal)) (h : platformEntry dl meta = Except.ok ps) :
    ∀ kv ∈ ps, kv.1 = "X-OIN-Platform" := by
  unfold platformEntry at h
  split at h
  · split at h
    next s =>
      injection h with h'
      subst h'
      intro kv hkv
      rcases List.mem_cons.mp hkv with hh | hh
      · subst hh
        rfl
      · cases hh
    next =>
      exact absurd h (by simp)
  · injection h with h'
    subst h'
    intro kv hkv
    cases hkv

theorem provEntries_keys (dl : DateLib) (meta : Meta)
    (ps : List (String × HVal)) (h : provEntries dl meta = Except.ok ps) :
    ∀ kv ∈ ps, kv.1 = "X-OIN-Provider" ∨ kv.1 = "X-OIN-Platform" := by
  unfold provEntries at h
  split at h
  · exact absurd h (by simp)
  next ps1 h1 =>
    split at h
    · exact absurd h (by simp)
    next ps2 h2 =>
      injection h with h'
      subst h'
      intro kv hkv
      rcases List.mem_append.mp hkv with hh | hh
      · exact Or.inl (providerEntry_keys dl meta ps1 h1 kv hh)
      · exact Or.inr (platformEntry_keys dl meta ps2 h2 kv hh)

/-! ### C8 -/

/-- C8 (confirmed).  Whenever `headers` returns a mapping, it contains
`X-OIN-Metadata-URL` bound to the metadata-document URI; when the
metadata document contains neither `acquisition_start` nor
`acquisition_end`, the returned mapping contains none of the
acquisition keys and no `X-VE-TILEMETA-CaptureDatesRange`; and the
method does not modify the catalog's stored state. -/
theorem c8_headers_properties (dl : DateLib) (c : OINMetaCatalog) :
    (∀ hs, headersCore dl c = Except.ok hs →
      dictGet hs "X-OIN-Metadata-URL" = some (HVal.str c.metadataUrl)) ∧
    (dictHas c.meta "acquisition_start" = false →
      dictHas c.meta "acquisition_end" = false →
      ∀ hs, headersCore dl c = Except.ok hs →
        dictGet hs "X-OIN-Acquisition-Start" = none ∧
        dictGet hs "X-OIN-Acquisition-End" = none ∧
        dictGet hs "X-VE-TILEMETA-CaptureDatesRange" = none) ∧
    (headersMethod dl c).2 = c := by
  refine ⟨?_, ?_, rfl⟩
  · intro hs h
    unfold headersCore at h
    split at h
    · exact absurd h (by simp)
    next acq hacq =>
      split at h
      · exact absurd h (by simp)
      next prov hprov =>
        injection h with h'
        subst h'
        simp [dictGet]
  · intro h1 h2 hs h
    have hacq0 : acqEntries dl c.meta = Except.ok [] := by
      unfold acqEntries
      rw [h1, h2]
      rfl
    unfold headersCore at h
    rw [hacq0] at h
    have h' : (match provEntries dl c.meta with
        | Except.error e => Except.error e
        | Except.ok prov => Except.ok
            ([("X-OIN-Metadata-URL", HVal.str c.metadataUrl)] ++ [] ++ prov)) =
        Except.ok hs := h
    split at h'
    · exact absurd h' (by simp)
    next prov hprov =>
      injection h' with h''
      subst h''
      refine ⟨?_, ?_, ?_⟩ <;>
      · apply dictGet_eq_none_of_keys
        intro kv hkv
        rcases List.mem_cons.mp hkv with hh | hh
        · subst hh
          simp
        · rcases provEntries_keys dl c.meta prov hprov kv hh with hk | hk <;>
            rw [hk] <;> simp

/-- The external date/text functions instantiated trivially for
witnesses. -/
def demoDateLib : DateLib :=
  ⟨fun _ => some "2020-01-01", fun s => s, fun s => s, fun s => s⟩

/-- A catalog whose document has no acquisition keys and a string
provider. -/
def c8DemoCatalog : OINMetaCatalog :=
  ⟨demoMeta, "s3://bucket/img_meta.json", dictGet demoMeta "title",
    dictGet demoMeta "provider", dictGet demoMeta "uuid", ⟨0, 0, 1, 1⟩,
    (1, 1), ⟨1/2, 1/2, 10⟩, 16, 3⟩

/-- Witness for `c8_headers_properties` on a concrete catalog. -/
theorem c8_headers_properties_witness :
    dictGet [("X-OIN-Metadata-URL", HVal.str "s3://bucket/img_meta.json"),
        ("X-OIN-Provider", HVal.bytes "DemoCorp")] "X-OIN-Metadata-URL" =
      some (HVal.str "s3://bucket/img_meta.json") ∧
    dictGet [("X-OIN-Metadata-URL", HVal.str "s3://bucket/img_meta.json"),
        ("X-OIN-Provider", HVal.bytes "DemoCorp")]
      "X-VE-TILEMETA-CaptureDatesRange" = none := by
  have h := c8_headers_properties demoDateLib c8DemoCatalog
  exact ⟨h.1 _ rfl, (h.2.1 rfl rfl _ rfl).2.2⟩

/-! ### C9 -/

/-- C9 (confirmed).  If the metadata document contains
`acquisition_start` or `acquisition_end` but every such value present
is falsy (empty/None), `headers` does not return a mapping: the outer
guard passes on key membership, no formatting branch fires on value
truthiness, and line 208 reads the never-assigned local
`capture_range` (`UnboundLocalError`). -/
theorem c9_falsy_acquisition_unbound_local (dl : DateLib)
    (c : OINMetaCatalog)
    (hin : (dictHas c.meta "acquisition_start" ||
      dictHas c.meta "acquisition_end") = true)
    (hs : optTruthy (dictGet c.meta "acquisition_start") = false)
    (he : optTruthy (dictGet c.meta "acquisition_end") = false) :
    headersCore dl c = Except.error HeadersErr.unboundLocalCaptureRange := by
  have hacq : acqEntries dl c.meta =
      Except.error HeadersErr.unboundLocalCaptureRange := by
    unfold acqEntries
    simp [hin, hs, he]
  unfold headersCore
  rw [hacq]

/-- A catalog whose document has an `acquisition_start` key holding an
empty (falsy) string. -/
def falsyAcqCatalog : OINMetaCatalog :=
  ⟨[("acquisition_start", MetaVal.str "")], "s3://bucket/img_meta.json",
    none, none, none, ⟨0, 0, 1, 1⟩, (1, 1), ⟨0, 0, 10⟩, 16, 3⟩

/-- Witness for `c9_falsy_acquisition_unbound_local`. -/
theorem c9_falsy_acquisition_unbound_local_witness :
    headersCore demoDateLib falsyAcqCatalog =
      Except.error HeadersErr.unboundLocalCaptureRange :=
  c9_falsy_acquisition_unbound_local demoDateLib falsyAcqCatalog rfl rfl rfl

/-! ### make_catalog URI construction (web.py lines 28-58) -/

/-- The S3_PREFIX normalization performed at import time in web.py
(lines 31-39): a bare "/" becomes empty; a missing trailing "/" is
appended; then a single leading "/" is stripped. -/
def normalizePfx (p : String) : String :=
  let p1 := if p = "/" then "" else p
  let p2 := if strEndsWith p1 "/" = false then p1 ++ "/" else p1
  if strStartsWith p2 "/" then ⟨p2.data.drop 1⟩ else p2

/-- The scene-document URI built by `make_catalog` (web.py lines
52-56).  The format string places the normalized prefix directly after
the bucket with no separator. -/
def sceneJsonUri (bucket pfx sceneId : String) (sceneIdx : ℕ) : String :=
  "s3://" ++ bucket ++ pfx ++ "/" ++ sceneId ++ "/" ++ toString sceneIdx ++
    "/scene.json"

/-- The image-metadata URI built by `make_catalog` (web.py lines
46-50).  Here a slash separates the bucket from the prefix. -/
def imageJsonUri (bucket pfx sceneId : String) (sceneIdx : ℕ)
    (imageId : String) : String :=
  "s3://" ++ bucket ++ "/" ++ pfx ++ sceneId ++ "/" ++ toString sceneIdx ++
    "/" ++ imageId ++ "_meta.json"

/-- The authority (bucket) component of an `s3://` URI as `urlparse`
extracts it: the characters between `s3://` and the next slash. -/
def s3Netloc (uri : String) : String :=
  ⟨(uri.data.drop 5).takeWhile (fun c => c != '/')⟩

/-- The first path segment of a string: its characters before the
first slash. -/
def firstSeg (s : String) : String :=
  ⟨s.data.takeWhile (fun c => c != '/')⟩

theorem takeWhile_append_of_all (p : Char → Bool) :
    ∀ l₁ l₂ : List Char, (∀ a ∈ l₁, p a = true) →
      (l₁ ++ l₂).takeWhile p = l₁ ++ l₂.takeWhile p := by
  intro l₁
  induction l₁ with
  | nil =>
    intro l₂ h
    rfl
  | cons a l ih =>
    intro l₂ h
    have ha := h a (List.mem_cons_self _ _)
    simp only [List.cons_append, List.takeWhile_cons, ha, if_true]
    rw [ih l₂ (fun b hb => h b (List.mem_cons_of_mem _ hb))]

theorem takeWhile_append_stop (p : Char → Bool) (c : Char)
    (hc : p c = false) :
    ∀ l₁ rest : List Char, (l₁ ++ c :: rest).takeWhile p = l₁.takeWhile p := by
  intro l₁
  induction l₁ with
  | nil =>
    intro rest
    simp [List.takeWhile_cons, hc]
  | cons a l ih =>
    intro rest
    simp only [List.cons_append, List.takeWhile_cons]
    cases hpa : p a
    · rfl
    · rw [ih rest]

theorem takeWhile_of_all (p : Char → Bool) :
    ∀ l : List Char, (∀ a ∈ l, p a = true) → l.takeWhile p = l := by
  intro l
  induction l with
  | nil =>
    intro h
    rfl
  | cons a rest ih =>
    intro h
    simp only [List.takeWhile_cons, h a (List.mem_cons_self _ _), if_true]
    rw [ih (fun b hb => h b (List.mem_cons_of_mem _ hb))]

theorem netloc_sceneJsonUri (bucket pfx sceneId : String) (sceneIdx : ℕ)
    (hb : ∀ ch ∈ bucket.data, (ch != '/') = true) :
    s3Netloc (sceneJsonUri bucket pfx sceneId sceneIdx) =
      bucket ++ firstSeg pfx := by
  apply String.ext
  have hdata : (sceneJsonUri bucket pfx sceneId sceneIdx).data =
      "s3://".data ++ (bucket.data ++ (pfx.data ++ ("/".data ++
        (sceneId.data ++ ("/".data ++ ((toString sceneIdx).data ++
          "/scene.json".data)))))) := by
    simp [sceneJsonUri, String.data_append, List.append_assoc]
  show ((sceneJsonUri bucket pfx sceneId sceneIdx).data.drop 5).takeWhile
      (fun c => c != '/') =
    bucket.data ++ pfx.data.takeWhile (fun c => c != '/')
  rw [hdata]
  show (bucket.data ++ (pfx.data ++ ('/' :: (sceneId.data ++ ("/".data ++
      ((toString sceneIdx).data ++ "/scene.json".data)))))).takeWhile
      (fun c => c != '/') =
    bucket.data ++ pfx.data.takeWhile (fun c => c != '/')
  rw [takeWhile_append_of_all _ bucket.data _ hb]
  rw [takeWhile_append_stop (fun c => c != '/') '/' rfl pfx.data]

theorem netloc_imageJsonUri (bucket pfx sceneId : String) (sceneIdx : ℕ)
    (imageId : String) (hb : ∀ ch ∈ bucket.data, (ch != '/') = true) :
    s3Netloc (imageJsonUri bucket pfx sceneId sceneIdx imageId) = bucket := by
  apply String.ext
  have hdata : (imageJsonUri bucket pfx sceneId sceneIdx imageId).data =
      "s3://".data ++ (bucket.data ++ ("/".data ++ (pfx.data ++
        (sceneId.data ++ ("/".data ++ ((toString sceneIdx).data ++
          ("/".data ++ (imageId.data ++ "_meta.json".data)))))))) := by
    simp [imageJsonUri, String.data_append, List.append_assoc]
  show ((imageJsonUri bucket pfx sceneId sceneIdx imageId).data.drop
      5).takeWhile (fun c => c != '/') = bucket.data
  rw [hdata]
  show (bucket.data ++ ('/' :: (pfx.data ++ (sceneId.data ++ ("/".data ++
      ((toString sceneIdx).data ++ ("/".data ++ (imageId.data ++
        "_meta.json".data)))))))).takeWhile (fun c => c != '/') = bucket.data
  rw [takeWhile_append_stop (fun c => c != '/') '/' rfl bucket.data]
  exact takeWhile_of_all _ bucket.data hb

/-! ### C10 -/

/-- C10 (counterexample).  The environment value `"//"` normalizes to
the non-empty prefix `"/"`, for which the scene URI and the image URI
are parsed under the *same* bucket authority — refuting both "for
every non-empty S3_PREFIX … different bucket authorities" and "only
with an empty prefix do both URI forms address the configured
bucket". -/
theorem c10_slash_uri_counterexample :
    normalizePfx "//" = "/" ∧
    ("/" : String) ≠ "" ∧
    s3Netloc (sceneJsonUri "bucket" (normalizePfx "//") "id" 0) = "bucket" ∧
    s3Netloc (imageJsonUri "bucket" (normalizePfx "//") "id" 0 "img") =
      "bucket" := by
  exact ⟨rfl, by decide, rfl, rfl⟩

/-- C10 (amended).  The scene URI concatenates bucket and normalized
prefix with no separator while the image URI inserts one; hence, for
every bucket without slashes and every non-empty normalized prefix not
itself beginning with a slash, the image URI is addressed under the
configured bucket while the scene URI is addressed under the distinct
authority `bucket ++ first-path-segment-of-prefix`; with an empty
prefix both URI forms address the configured bucket. -/
theorem c10_uri_bucket_amended (bucket pfx sceneId imageId : String)
    (sceneIdx : ℕ) (hb : ∀ ch ∈ bucket.data, (ch != '/') = true)
    (hp : pfx ≠ "") (hp1 : strStartsWith pfx "/" = false) :
    s3Netloc (imageJsonUri bucket pfx sceneId sceneIdx imageId) = bucket ∧
    s3Netloc (sceneJsonUri bucket pfx sceneId sceneIdx) =
      bucket ++ firstSeg pfx ∧
    s3Netloc (sceneJsonUri bucket pfx sceneId sceneIdx) ≠ bucket ∧
    s3Netloc (sceneJsonUri bucket "" sceneId sceneIdx) = bucket := by
  obtain ⟨pl⟩ := pfx
  have hpl : pl ≠ [] := by
    intro h
    apply hp
    rw [h]
  obtain ⟨c, r, hcr⟩ : ∃ c r, pl = c :: r := by
    cases pl with
    | nil => exact absurd rfl hpl
    | cons c r => exact ⟨c, r, rfl⟩
  subst hcr
  have hc : (c != '/') = true := by
    unfold strStartsWith at hp1
    rw [show ("/" : String).data = ['/'] from rfl] at hp1
    simp only [List.isPrefixOf] at hp1
    cases hcc : ('/' : Char) == c
    · simp [Ne.symm (ne_of_beq_false hcc)]
    · rw [hcc] at hp1
      simp at hp1
  refine ⟨netloc_imageJsonUri bucket ⟨c :: r⟩ sceneId sceneIdx imageId hb,
    netloc_sceneJsonUri bucket ⟨c :: r⟩ sceneId sceneIdx hb, ?_, ?_⟩
  · rw [netloc_sceneJsonUri bucket ⟨c :: r⟩ sceneId sceneIdx hb]
    intro heq
    have hlen := congrArg (fun s => s.data.length) heq
    simp only [String.data_append] at hlen
    rw [List.length_append] at hlen
    have hfs : (firstSeg ⟨c :: r⟩).data =
        c :: r.takeWhile (fun x => x != '/') := by
      show (c :: r).takeWhile (fun x => x != '/') = _
      simp [List.takeWhile_cons, hc]
    rw [hfs] at hlen
    simp at hlen
  · rw [netloc_sceneJsonUri bucket "" sceneId sceneIdx hb]
    apply String.ext
    show bucket.data ++ [] = bucket.data
    exact List.append_nil bucket.data

/-- Witness for `c10_uri_bucket_amended` at a concrete configuration:
bucket `bucket`, normalized prefix `pfx/`. -/
theorem c10_uri_bucket_amended_witness :
    s3Netloc (imageJsonUri "bucket" "pfx/" "id" 7 "img") = "bucket" ∧
    s3Netloc (sceneJsonUri "bucket" "pfx/" "id" 7) = "bucketpfx" ∧
    s3Netloc (sceneJsonUri "bucket" "pfx/" "id" 7) ≠ "bucket" := by
  have h := c10_uri_bucket_amended "bucket" "pfx/" "id" "img" 7 (by decide)
    (by decide) (by decide)
  exact ⟨h.1, h.2.1, h.2.2.1⟩

end OAM
